import Mathlib

/-!
# SemanticSearch component: query validation, prefix toggling, result grouping
and the interaction handlers

A shallow embedding of `src/components/SemanticSearch.jsx`.

* JavaScript strings are modelled as `List Char`.  Every pattern the component
  searches for is ASCII and every character `trim` removes lies in the basic
  multilingual plane, so working on code points instead of UTF-16 code units
  does not change `includes`, `replace`, `trim` or `length > 0`.
* A React event handler reads the state of the render it was created in (its
  closure) and calls setters, collaborators and the search API.  A handler is
  modelled as a function of that snapshot into a small effect monad that keeps
  the pending component state and the ordered trace of calls.
* `handleSearch` suspends at its `await`.  While the call is pending the
  other handlers of the component stay live, so an awaited call is modelled by
  how it settles together with an arbitrary change of the component state made
  meanwhile; the continuation then runs on the state so changed.  The trace
  holds the calls of the running handler only.
-/

namespace SemanticSearch

/-! ## JavaScript strings -/

/-- A JavaScript string. -/
abbrev JsString := List Char

/-- ECMAScript `WhiteSpace` and `LineTerminator` code points: what
`String.prototype.trim` strips. -/
def isWhiteSpace (c : Char) : Bool :=
  let n := c.toNat
  n == 0x09 || n == 0x0A || n == 0x0B || n == 0x0C || n == 0x0D || n == 0x20 ||
  n == 0xA0 || n == 0x1680 || (0x2000 ≤ n && n ≤ 0x200A) || n == 0x2028 ||
  n == 0x2029 || n == 0x202F || n == 0x205F || n == 0x3000 || n == 0xFEFF

/-- `String.prototype.trimStart`. -/
def trimStart (s : JsString) : JsString := s.dropWhile isWhiteSpace

/-- `String.prototype.trimEnd`. -/
def trimEnd (s : JsString) : JsString := s.rdropWhile isWhiteSpace

/-- `String.prototype.trim`. -/
def trim (s : JsString) : JsString := trimEnd (trimStart s)

/-- `String.prototype.indexOf(pat)`: the least index at which `pat` occurs in
`s`, `none` standing for `-1`. -/
def indexOf (s pat : JsString) : Option Nat :=
  if pat.isPrefixOf s then some 0
  else
    match s with
    | [] => none
    | _ :: cs => (indexOf cs pat).map (· + 1)

/-- `String.prototype.includes(pat)`. -/
def includes (s pat : JsString) : Bool := (indexOf s pat).isSome

/-- `String.prototype.replace(pat, repl)` with a string pattern and a
replacement without `$` patterns: only the first occurrence is replaced. -/
def replace (s pat repl : JsString) : JsString :=
  match indexOf s pat with
  | none => s
  | some pos => s.take pos ++ repl ++ s.drop (pos + pat.length)

/-- Scan for `String.prototype.replaceAll(pat, "")`: `skip` counts the
characters of a matched occurrence still to be dropped. -/
def removeAllFrom (pat : JsString) : Nat → JsString → JsString
  | _, [] => []
  | skip + 1, _ :: cs => removeAllFrom pat skip cs
  | 0, c :: cs =>
    if pat.isPrefixOf (c :: cs) then removeAllFrom pat (pat.length - 1) cs
    else c :: removeAllFrom pat 0 cs

/-- `String.prototype.replaceAll(pat, "")` for a non-empty string pattern:
every occurrence found by a left-to-right scan is removed.  The component
never calls it; it states what removing every occurrence means. -/
def removeAll (s pat : JsString) : JsString := removeAllFrom pat 0 s

/-! ## Prefix vocabulary and query validation -/

/-- The constant `PREFIXES` of the component. -/
def PREFIXES : List JsString :=
  ["template".toList, "vault".toList, "initial-prompt".toList,
   "refined-prompt".toList, "content".toList]

/-- The template literal built from a prefix name and a colon. -/
def prefixWithColon (p : JsString) : JsString := p ++ [':']

/-- The function `isValidQuery` of the component: `forEach` over the prefix
tokens updating the local `remainingQuery`. -/
def isValidQuery (query : JsString) : Bool :=
  let prefixes := PREFIXES.map prefixWithColon
  let remainingQuery :=
    prefixes.foldl
      (fun remainingQuery p =>
        if includes remainingQuery p then replace remainingQuery p [] else remainingQuery)
      query
  decide ((trim remainingQuery).length > 0)

/-- The string `handleAddPrefix` passes to `setSearchQuery`. -/
def handleAddPrefixValue (searchQuery p : JsString) : JsString :=
  if includes searchQuery (prefixWithColon p) then
    replace searchQuery (prefixWithColon p) []
  else
    trim (prefixWithColon p ++ searchQuery)

/-- The remaining text in the words of the specification: every occurrence of
every prefix token removed, in vocabulary order. -/
def removeAllPrefixTokens (query : JsString) : JsString :=
  (PREFIXES.map prefixWithColon).foldl (fun remaining t => removeAll remaining t) query

/-- Removal of the first occurrence of `t` from a string, by a left-to-right
scan: the text up to the first position where `t` begins is kept, `t` is
dropped there, and the rest is kept untouched. -/
def removeFirst (t : JsString) : JsString → JsString
  | [] => []
  | c :: cs => if t.isPrefixOf (c :: cs) then (c :: cs).drop t.length else c :: removeFirst t cs

/-- The remaining text when only the first occurrence of each prefix token is
removed, in vocabulary order. -/
def removeFirstPrefixTokens (query : JsString) : JsString :=
  removeFirst "content:".toList
    (removeFirst "refined-prompt:".toList
      (removeFirst "initial-prompt:".toList
        (removeFirst "vault:".toList
          (removeFirst "template:".toList query))))

/-- The prefix tokens, in vocabulary order. -/
def prefixTokens : List JsString := PREFIXES.map prefixWithColon

/-- A query that consists only of prefix tokens and whitespace: the pieces it
is the concatenation of are each a prefix token or a run of whitespace. -/
def OnlyPrefixTokens (pieces : List JsString) : Prop :=
  ∀ x ∈ pieces, x ∈ prefixTokens ∨ x.all isWhiteSpace = true

instance (pieces : List JsString) : Decidable (OnlyPrefixTokens pieces) :=
  inferInstanceAs (Decidable (∀ x ∈ pieces, x ∈ prefixTokens ∨ x.all isWhiteSpace = true))

/-! ## Search responses and the rendered grouping -/

/-- A result item returned by the search API.  Fields the API leaves out are
`none` (JavaScript `undefined`). -/
structure ResultItem where
  name : Option JsString
  role : Option JsString
  tags : Option (List JsString)
  description : Option JsString
  generatedContent : Option JsString
  initialPrompt : Option JsString
  refinedPrompt : Option JsString
deriving DecidableEq, Repr

/-- The object the search API resolves to: own keys in enumeration order, each
with an array of items or a nullish value (`none`). -/
abbrev SearchResponse := List (JsString × Option (List ResultItem))

/-- Property access `searchResults[key]`; a missing key reads as nullish. -/
def getProp (searchResults : SearchResponse) (key : JsString) : Option (List ResultItem) :=
  match searchResults.lookup key with
  | some v => v
  | none => none

/-- `Object.keys(searchResults)`. -/
def objectKeys (searchResults : SearchResponse) : List JsString :=
  searchResults.map Prod.fst

/-- The test `v?.length > 0`. -/
def lengthPositive (v : Option (List ResultItem)) : Bool :=
  match v with
  | some items => decide (items.length > 0)
  | none => false

/-- One category block of the results panel: its React key, its header text
and the items listed under it. -/
structure CategoryBlock where
  key : JsString
  header : JsString
  items : List ResultItem
deriving DecidableEq, Repr

/-- What `renderSearchResults` returns: the results panel with one child per
vocabulary entry (`none` for a `false` child, which React does not display),
or the "No results found." box. -/
inductive Rendered where
  | panel (children : List (Option CategoryBlock))
  | noResultsFound
deriving DecidableEq, Repr

/-- The function `renderSearchResults` of the component. -/
def renderSearchResults (searchResults : SearchResponse) : Rendered :=
  if (objectKeys searchResults).any
      (fun key => PREFIXES.contains key && lengthPositive (getProp searchResults key)) then
    Rendered.panel
      (PREFIXES.map fun pfx =>
        if lengthPositive (getProp searchResults pfx) then
          some
            { key := pfx
              header := replace pfx ['-'] [' ']
              items := (getProp searchResults pfx).getD [] }
        else none)
  else Rendered.noResultsFound

/-- The category blocks React displays for a rendered value, as
(category, items) pairs in display order. -/
def Rendered.grouping : Rendered → List (JsString × List ResultItem)
  | Rendered.panel children => children.filterMap (Option.map fun b => (b.key, b.items))
  | Rendered.noResultsFound => []

/-- The grouping in the words of the specification: the vocabulary-ordered
pairs (category, items of that category) restricted to the categories whose
item sequence is present and non-empty. -/
def specGrouping (r : SearchResponse) : List (JsString × List ResultItem) :=
  PREFIXES.filterMap fun pfx =>
    match getProp r pfx with
    | some (x :: xs) => some (pfx, x :: xs)
    | _ => none

/-! ## Component state and handlers -/

/-- The four `useState` cells of the component. -/
structure State where
  searchQuery : JsString
  isSearching : Bool
  searchResults : Option SearchResponse
  showAdvancedSearch : Bool
deriving DecidableEq, Repr

/-- A call a handler makes: a state setter, the search API, the console, the
toast hook, the playground store, the navigation prop or the event object. -/
inductive Call where
  | setSearchQuery (v : JsString)
  | setIsSearching (v : Bool)
  | setSearchResults (v : Option SearchResponse)
  | setShowAdvancedSearch (v : Bool)
  | searchPrompts (query : JsString)
  | consoleLog
  | consoleError
  | toastError (message : JsString) (duration : Nat)
  | toastInfo (message : JsString) (duration : Nat)
  | setCurrentTemplate (result : ResultItem)
  | setCurrentView (view : JsString)
  | preventDefault
deriving DecidableEq, Repr

/-- A thrown JavaScript value. -/
abbrev JsError := JsString

/-- What a running handler carries: the pending component state and the calls
made so far, oldest first. -/
structure World where
  state : State
  trace : List Call
deriving DecidableEq, Repr

/-- A handler body: it may throw, and it updates the world either way. -/
def Eff (α : Type) : Type := World → Except JsError α × World

/-- Sequencing of statements: a throw skips the rest. -/
def Eff.bind {α β : Type} (m : Eff α) (f : α → Eff β) : Eff β := fun w =>
  match m w with
  | (Except.ok a, w1) => f a w1
  | (Except.error e, w1) => (Except.error e, w1)

instance : Monad Eff where
  pure a := fun w => (Except.ok a, w)
  bind := Eff.bind

/-- A `try` block with its `catch` clause. -/
def tryCatch {α : Type} (body : Eff α) (handler : JsError → Eff α) : Eff α := fun w =>
  match body w with
  | (Except.ok a, w1) => (Except.ok a, w1)
  | (Except.error e, w1) => handler e w1

/-- Record a call that returns nothing and cannot fail. -/
def call (c : Call) : Eff Unit := fun w =>
  (Except.ok (), { w with trace := w.trace ++ [c] })

/-- Update the pending state. -/
def modifyState (f : State → State) : Eff Unit := fun w =>
  (Except.ok (), { w with state := f w.state })

def setSearchQuery (v : JsString) : Eff Unit := do
  call (Call.setSearchQuery v)
  modifyState fun s => { s with searchQuery := v }

def setIsSearching (v : Bool) : Eff Unit := do
  call (Call.setIsSearching v)
  modifyState fun s => { s with isSearching := v }

def setSearchResults (v : Option SearchResponse) : Eff Unit := do
  call (Call.setSearchResults v)
  modifyState fun s => { s with searchResults := v }

def setShowAdvancedSearch (v : Bool) : Eff Unit := do
  call (Call.setShowAdvancedSearch v)
  modifyState fun s => { s with showAdvancedSearch := v }

/-- One awaited call of the search API: whether it resolves to a response or
rejects, and what the handlers of the events dispatched while it is pending
(typing, the Advanced button, Enter, a pointer-down, a selection) do to the
component state before the continuation runs. -/
structure AwaitedCall where
  outcome : Except JsError SearchResponse
  meanwhile : State → State

/-- The search API as the component sees it, for each query. -/
abbrev SearchApi := JsString → AwaitedCall

/-- The expression `await searchPrompts(query)`: the call is made, the handler
is suspended while the state changes under it, and the outcome is delivered. -/
def awaitSearchPrompts (api : SearchApi) (query : JsString) : Eff SearchResponse := fun w =>
  ((api query).outcome,
    { state := (api query).meanwhile w.state
      trace := w.trace ++ [Call.searchPrompts query] })

/-- Run a handler from the state of the render that created it. -/
def run (snapshot : State) (h : Eff Unit) : Except JsError Unit × World :=
  h { state := snapshot, trace := [] }

/-- The handler `handleAddPrefix`. -/
def handleAddPrefix (snapshot : State) (pfx : JsString) : Eff Unit :=
  setSearchQuery (handleAddPrefixValue snapshot.searchQuery pfx)

/-- The handler `handleSearch`. -/
def handleSearch (api : SearchApi) (snapshot : State) : Eff Unit :=
  if (trim snapshot.searchQuery).isEmpty then pure ()
  else do
    setIsSearching true
    setShowAdvancedSearch false
    tryCatch
      (do
        let response ← awaitSearchPrompts api snapshot.searchQuery
        call Call.consoleLog
        setSearchResults (some response))
      (fun _ => do
        call Call.consoleError
        call (Call.toastError "Error during search".toList 6000))
    setIsSearching false

/-- The part of a keyboard event the component reads. -/
structure KeyEvent where
  key : JsString
  shiftKey : Bool
deriving DecidableEq, Repr

/-- The handler `handleKeyPress`. -/
def handleKeyPress (api : SearchApi) (snapshot : State) (e : KeyEvent) : Eff Unit :=
  if e.key = "Enter".toList ∧ e.shiftKey = false then do
    call Call.preventDefault
    handleSearch api snapshot
  else pure ()

/-- The `onClick` of the Advanced button. -/
def handleAdvancedClick (snapshot : State) : Eff Unit :=
  setShowAdvancedSearch (!snapshot.showAdvancedSearch)

/-- The `disabled` attribute of the Search button. -/
def searchButtonDisabled (s : State) : Bool :=
  s.isSearching || !isValidQuery s.searchQuery

/-- A click on the Search button: a disabled button dispatches no click. -/
def clickSearchButton (api : SearchApi) (snapshot : State) : Eff Unit :=
  if searchButtonDisabled snapshot then pure () else handleSearch api snapshot

/-- The handler `handleSelectTemplate`. -/
def handleSelectTemplate (result : ResultItem) : Eff Unit := do
  setSearchQuery []
  call (Call.setCurrentTemplate result)
  setSearchResults none
  call (Call.setCurrentView "playground".toList)

/-- The `onClick` of a listed result. -/
def resultOnClick (pfx : JsString) (result : ResultItem) : Eff Unit :=
  if pfx = "template".toList then handleSelectTemplate result
  else call (Call.toastInfo "This feature is currently under development.".toList 6000)

/-- The render condition of the results panel. -/
def resultsPanelShown (s : State) : Bool :=
  s.searchResults.isSome && !s.showAdvancedSearch

/-- The render condition of the advanced panel. -/
def advancedPanelShown (s : State) : Bool := s.showAdvancedSearch

/-! ## Dismissal on an outside pointer-down -/

/-- A DOM node. -/
abbrev Node := Nat

/-- The element `containerRef.current` points to, with the nodes it contains
(itself included). -/
structure Container where
  nodes : List Node
deriving DecidableEq, Repr

/-- The DOM method `Node.contains`. -/
def Container.contains (c : Container) (target : Node) : Bool := c.nodes.contains target

/-- The listener `handleClickOutside`. -/
def handleClickOutside (containerRef : Option Container) (target : Node) : Eff Unit :=
  match containerRef with
  | some current =>
    if !current.contains target then do
      setSearchResults none
      setShowAdvancedSearch false
    else pure ()
  | none => pure ()

/-- The effect of `useEffect` for a render with state `s`: the `mousedown`
listener it adds to the document, or `none` when it returns early. -/
def outsideClickEffect (s : State) (containerRef : Option Container) :
    Option (Node → Eff Unit) :=
  if s.searchResults.isNone ∧ s.showAdvancedSearch = false then none
  else some (handleClickOutside containerRef)

/-- A `mousedown` on the document while the render with state `s` is current:
the registered listener, if any, runs. -/
def documentMouseDown (s : State) (containerRef : Option Container) (target : Node) :
    Except JsError Unit × World :=
  match outsideClickEffect s containerRef with
  | some listener => run s (listener target)
  | none => run s (pure ())

/-- Whether a call is an error notification of the toast hook. -/
def Call.isToastError : Call → Bool
  | Call.toastError _ _ => true
  | _ => false

/-! ## Concrete inputs -/

/-- A template item as the API returns it. -/
def emailTemplate : ResultItem :=
  { name := some "Email".toList
    role := some "Writer".toList
    tags := some ["mail".toList]
    description := some "Write an email".toList
    generatedContent := none
    initialPrompt := none
    refinedPrompt := none }

/-- A vault item as the API returns it. -/
def vaultNote : ResultItem :=
  { name := some "Note".toList
    role := none
    tags := none
    description := none
    generatedContent := some "Saved text".toList
    initialPrompt := none
    refinedPrompt := none }

/-- A response with one template. -/
def oneTemplateResponse : SearchResponse := [("template".toList, some [emailTemplate])]

/-- The state after a search for "email" returned `oneTemplateResponse`. -/
def resultsShownState : State :=
  { searchQuery := "email".toList
    isSearching := false
    searchResults := some oneTemplateResponse
    showAdvancedSearch := false }

/-- The state after typing only a prefix token. -/
def prefixOnlyState : State :=
  { searchQuery := "template:".toList
    isSearching := false
    searchResults := none
    showAdvancedSearch := false }

/-- The state while a search for "email" is in flight. -/
def inFlightState : State :=
  { searchQuery := "email".toList
    isSearching := true
    searchResults := none
    showAdvancedSearch := false }

/-- A response with an empty category, a filled one, a key outside the
vocabulary and a nullish category. -/
def mixedResponse : SearchResponse :=
  [("template".toList, some []), ("vault".toList, some [vaultNote]),
   ("misc".toList, some [emailTemplate]), ("content".toList, none)]

/-- The pieces of the query "vault: vault:". -/
def repeatedVaultPieces : List JsString := ["vault:".toList, " ".toList, "vault:".toList]

/-- The pieces of the query " content: template:vault: ". -/
def threeTokenPieces : List JsString :=
  [" ".toList, "content:".toList, " ".toList, "template:".toList, "vault:".toList, " ".toList]

/-- An API whose call always rejects, with no event while it is pending. -/
def failingApi : SearchApi := fun _ =>
  { outcome := Except.error "Network Error".toList, meanwhile := id }

/-- An API whose call always resolves to `oneTemplateResponse`, with no event
while it is pending. -/
def workingApi : SearchApi := fun _ =>
  { outcome := Except.ok oneTemplateResponse, meanwhile := id }

/-- The component state after a click on the Advanced button in state `s`. -/
def advancedClicked (s : State) : State := (run s (handleAdvancedClick s)).2.state

/-- An API whose call always rejects, the Advanced button being clicked while
the call is pending. -/
def failingApiAdvancedClicked : SearchApi := fun _ =>
  { outcome := Except.error "Network Error".toList, meanwhile := advancedClicked }

/-- The Enter key without shift. -/
def enterKey : KeyEvent := { key := "Enter".toList, shiftKey := false }

/-- A mounted container holding nodes 1, 2 and 3. -/
def mountedContainer : Container := { nodes := [1, 2, 3] }

end SemanticSearch

namespace SemanticSearch

/-! ## Handlers: selection, dismissal, search -/

theorem run_handleSelectTemplate (s : State) (item : ResultItem) :
    run s (handleSelectTemplate item) =
      (Except.ok (),
        { state := { s with searchQuery := [], searchResults := none }
          trace := [Call.setSearchQuery [], Call.setCurrentTemplate item,
                    Call.setSearchResults none, Call.setCurrentView "playground".toList] }) := by
  rfl

theorem run_handleSearch_error (api : SearchApi) (s : State) (e : JsError)
    (hq : (trim s.searchQuery).isEmpty = false)
    (hfail : (api s.searchQuery).outcome = Except.error e) :
    run s (handleSearch api s) =
      (Except.ok (),
        { state :=
            { (api s.searchQuery).meanwhile
                { s with isSearching := true, showAdvancedSearch := false } with
              isSearching := false }
          trace := [Call.setIsSearching true, Call.setShowAdvancedSearch false,
                    Call.searchPrompts s.searchQuery, Call.consoleError,
                    Call.toastError "Error during search".toList 6000,
                    Call.setIsSearching false] }) := by
  simp only [run, handleSearch, hq, Bool.false_eq_true, if_false]
  simp only [bind, Eff.bind, tryCatch, awaitSearchPrompts, setIsSearching, setShowAdvancedSearch,
    call, modifyState, hfail]
  rfl

/-- C8 (amended): clicking a listed template item, in any state where the
results panel is shown, completes without throwing, leaves the query text
empty, the search response null and neither overlay shown, keeps `isSearching`,
and makes exactly these calls in this order: the query is cleared, the item is
handed to `setCurrentTemplate`, the response is cleared, and navigation to
`'playground'` is requested. -/
theorem select_template_resets_and_hands_off (s : State) (item : ResultItem)
    (hshown : resultsPanelShown s = true) :
    (run s (resultOnClick "template".toList item)).1 = Except.ok () ∧
    (run s (resultOnClick "template".toList item)).2.state =
      { s with searchQuery := [], searchResults := none } ∧
    resultsPanelShown (run s (resultOnClick "template".toList item)).2.state = false ∧
    advancedPanelShown (run s (resultOnClick "template".toList item)).2.state = false ∧
    (run s (resultOnClick "template".toList item)).2.trace =
      [Call.setSearchQuery [], Call.setCurrentTemplate item, Call.setSearchResults none,
       Call.setCurrentView "playground".toList] := by
  have hrun : run s (resultOnClick "template".toList item) = run s (handleSelectTemplate item) := by
    simp [resultOnClick]
  rw [hrun, run_handleSelectTemplate]
  refine ⟨rfl, rfl, ?_, ?_, rfl⟩
  · simp [resultsPanelShown]
  · simp only [resultsPanelShown, Bool.and_eq_true, Bool.not_eq_true', Bool.not_eq_eq_eq_not,
      Bool.not_true] at hshown
    simpa [advancedPanelShown] using hshown.2

/-- Witness for C8 (amended) at `resultsShownState` and `emailTemplate`. -/
theorem select_template_resets_and_hands_off_witness :
    resultsPanelShown resultsShownState = true ∧
    (run resultsShownState (resultOnClick "template".toList emailTemplate)).2.state =
      { resultsShownState with searchQuery := [], searchResults := none } ∧
    (run resultsShownState (resultOnClick "template".toList emailTemplate)).2.trace =
      [Call.setSearchQuery [], Call.setCurrentTemplate emailTemplate, Call.setSearchResults none,
       Call.setCurrentView "playground".toList] :=
  ⟨by decide,
   (select_template_resets_and_hands_off resultsShownState emailTemplate (by decide)).2.1,
   (select_template_resets_and_hands_off resultsShownState emailTemplate (by decide)).2.2.2.2⟩

/-- Counterexample for C8 as stated: selecting `emailTemplate` in
`resultsShownState`, the calls made before the handoff `setCurrentTemplate` do
not include the clearing of the search response, so the state reset is not
complete before the handoff. -/
theorem select_template_reset_not_before_handoff :
    ¬ ∃ pre post : List Call,
      (run resultsShownState (resultOnClick "template".toList emailTemplate)).2.trace =
        pre ++ Call.setCurrentTemplate emailTemplate :: post ∧
      Call.setSearchQuery [] ∈ pre ∧ Call.setSearchResults none ∈ pre := by
  rintro ⟨pre, post, h, _, hr⟩
  have htrace : (run resultsShownState (resultOnClick "template".toList emailTemplate)).2.trace =
      [Call.setSearchQuery [], Call.setCurrentTemplate emailTemplate, Call.setSearchResults none,
       Call.setCurrentView "playground".toList] := rfl
  rw [htrace] at h
  match pre, h, hr with
  | [], _, hr => simp at hr
  | [a], h, hr =>
    simp only [List.singleton_append, List.cons.injEq] at h
    simp only [List.mem_singleton] at hr
    rw [← h.1] at hr
    exact absurd hr (by decide)
  | a :: b :: rest, h, _ =>
    simp only [List.cons_append, List.cons.injEq] at h
    have h3 := h.2.2
    match rest, h3 with
    | [], h3 =>
      simp only [List.nil_append, List.cons.injEq] at h3
      exact absurd h3.1 (by decide)
    | [c], h3 =>
      simp only [List.singleton_append, List.cons.injEq] at h3
      exact absurd h3.2.1 (by decide)
    | c :: d :: rest2, h3 =>
      simp only [List.cons_append, List.cons.injEq] at h3
      have h5 := h3.2.2
      cases rest2 <;> simp at h5

/-- C7 (amended): when `handleSearch` passes its guard and the API call
rejects, then whatever the other handlers do to the state while the call is
pending, the handler completes without throwing, the resulting state has
`isSearching = false`, and the handler emits exactly one error notification.
The failure path writes nothing else: every other field is as it stood when
the rejection arrived, so the results panel is not closed by the failure but
left shown or hidden as it was at that moment. -/
theorem search_failure_recovers (api : SearchApi) (s : State) (e : JsError)
    (hq : (trim s.searchQuery).isEmpty = false)
    (hfail : (api s.searchQuery).outcome = Except.error e) :
    (run s (handleSearch api s)).1 = Except.ok () ∧
    (run s (handleSearch api s)).2.state.isSearching = false ∧
    (run s (handleSearch api s)).2.trace.filter Call.isToastError =
      [Call.toastError "Error during search".toList 6000] ∧
    (run s (handleSearch api s)).2.state =
      { (api s.searchQuery).meanwhile
          { s with isSearching := true, showAdvancedSearch := false } with
        isSearching := false } ∧
    resultsPanelShown (run s (handleSearch api s)).2.state =
      resultsPanelShown
        ((api s.searchQuery).meanwhile
          { s with isSearching := true, showAdvancedSearch := false }) := by
  rw [run_handleSearch_error api s e hq hfail]
  refine ⟨rfl, rfl, ?_, rfl, rfl⟩
  simp [List.filter, Call.isToastError]

/-- Witness for C7 (amended): a search submitted from `resultsShownState`
whose call rejects after the Advanced button was clicked while it was pending
ends with `isSearching = false`, the advanced panel open and the results panel
hidden behind it, the earlier response still populated. -/
theorem search_failure_recovers_witness :
    (trim resultsShownState.searchQuery).isEmpty = false ∧
    (failingApiAdvancedClicked resultsShownState.searchQuery).outcome =
      Except.error "Network Error".toList ∧
    (run resultsShownState (handleSearch failingApiAdvancedClicked resultsShownState)).1 =
      Except.ok () ∧
    (run resultsShownState (handleSearch failingApiAdvancedClicked resultsShownState)).2.state =
      { resultsShownState with showAdvancedSearch := true } :=
  ⟨by decide, rfl,
   (search_failure_recovers failingApiAdvancedClicked resultsShownState "Network Error".toList
      (by decide) rfl).1,
   (search_failure_recovers failingApiAdvancedClicked resultsShownState "Network Error".toList
      (by decide) rfl).2.2.2.1⟩

/-- Counterexample for C7 as stated: a search submitted from
`resultsShownState` whose API call rejects, with no other event in between,
ends with the results panel still shown, displaying the earlier response. -/
theorem search_failure_keeps_old_results :
    (trim resultsShownState.searchQuery).isEmpty = false ∧
    (failingApi resultsShownState.searchQuery).outcome = Except.error "Network Error".toList ∧
    (run resultsShownState (handleSearch failingApi resultsShownState)).1 = Except.ok () ∧
    resultsPanelShown (run resultsShownState (handleSearch failingApi resultsShownState)).2.state =
      true ∧
    (run resultsShownState (handleSearch failingApi resultsShownState)).2.state.searchResults =
      some oneTemplateResponse :=
  ⟨by decide, rfl, rfl, by decide, by decide⟩

theorem run_handleClickOutside_outside (s : State) (c : Container) (target : Node)
    (hout : c.contains target = false) :
    run s (handleClickOutside (some c) target) =
      (Except.ok (),
        { state := { s with searchResults := none, showAdvancedSearch := false }
          trace := [Call.setSearchResults none, Call.setShowAdvancedSearch false] }) := by
  simp only [run, handleClickOutside, hout, Bool.not_false, if_true]
  rfl

theorem run_handleClickOutside_inside (s : State) (c : Container) (target : Node)
    (hin : c.contains target = true) :
    run s (handleClickOutside (some c) target) = (Except.ok (), { state := s, trace := [] }) := by
  simp only [run, handleClickOutside, hin, Bool.not_true, Bool.false_eq_true, if_false]
  rfl

theorem outsideClickEffect_isSome (s : State) (containerRef : Option Container) :
    (outsideClickEffect s containerRef).isSome = true ↔
      (s.searchResults.isSome = true ∨ s.showAdvancedSearch = true) := by
  unfold outsideClickEffect
  cases hr : s.searchResults <;> cases ha : s.showAdvancedSearch <;> simp

/-- C9: with the search response populated or the advanced panel open, a
pointer-down on the document whose target is outside the container leaves
`searchResults = null` and `showAdvancedSearch = false` with the query text and
`isSearching` unchanged; a pointer-down inside the container changes nothing in
any state; and the listener is registered exactly in the states where at least
one of the two overlays is open. -/
theorem outside_pointer_down_dismisses (s : State) (c : Container) (target : Node)
    (containerRef : Option Container) :
    ((s.searchResults.isSome = true ∨ s.showAdvancedSearch = true) →
      c.contains target = false →
      documentMouseDown s (some c) target =
        (Except.ok (),
          { state := { s with searchResults := none, showAdvancedSearch := false }
            trace := [Call.setSearchResults none, Call.setShowAdvancedSearch false] })) ∧
    (c.contains target = true →
      documentMouseDown s (some c) target = (Except.ok (), { state := s, trace := [] })) ∧
    ((outsideClickEffect s containerRef).isSome = true ↔
      (s.searchResults.isSome = true ∨ s.showAdvancedSearch = true)) := by
  refine ⟨?_, ?_, outsideClickEffect_isSome s containerRef⟩
  · intro hopen hout
    have hreg := (outsideClickEffect_isSome s (some c)).mpr hopen
    unfold documentMouseDown
    unfold outsideClickEffect at hreg ⊢
    split_ifs at hreg ⊢ with h
    · simp at hreg
    · exact run_handleClickOutside_outside s c target hout
  · intro hin
    unfold documentMouseDown outsideClickEffect
    split_ifs with h
    · rfl
    · exact run_handleClickOutside_inside s c target hin

/-- Witness for C9 at `resultsShownState`: node 9 is outside
`mountedContainer`, node 2 is inside. -/
theorem outside_pointer_down_dismisses_witness :
    (resultsShownState.searchResults.isSome = true ∨
      resultsShownState.showAdvancedSearch = true) ∧
    mountedContainer.contains 9 = false ∧
    documentMouseDown resultsShownState (some mountedContainer) 9 =
      (Except.ok (),
        { state := { resultsShownState with searchResults := none, showAdvancedSearch := false }
          trace := [Call.setSearchResults none, Call.setShowAdvancedSearch false] }) ∧
    mountedContainer.contains 2 = true ∧
    documentMouseDown resultsShownState (some mountedContainer) 2 =
      (Except.ok (), { state := resultsShownState, trace := [] }) :=
  ⟨Or.inl (by decide), by decide,
   (outside_pointer_down_dismisses resultsShownState mountedContainer 9 none).1
     (Or.inl (by decide)) (by decide),
   by decide,
   (outside_pointer_down_dismisses resultsShownState mountedContainer 2 none).2.1 (by decide)⟩

/-- C2 (evaluation of the code): with the query "template:" the query is not
valid and the Search button is disabled, so a click does nothing, yet Enter
without shift calls the search API with "template:" and changes the state; and
while a search for "email" is in flight the button is disabled, yet Enter
calls the search API again. -/
theorem enter_key_bypasses_submit_guard :
    isValidQuery prefixOnlyState.searchQuery = false ∧
    run prefixOnlyState (clickSearchButton workingApi prefixOnlyState) =
      (Except.ok (), { state := prefixOnlyState, trace := [] }) ∧
    run prefixOnlyState (handleKeyPress workingApi prefixOnlyState enterKey) =
      (Except.ok (),
        { state := { prefixOnlyState with searchResults := some oneTemplateResponse }
          trace := [Call.preventDefault, Call.setIsSearching true,
                    Call.setShowAdvancedSearch false, Call.searchPrompts "template:".toList,
                    Call.consoleLog, Call.setSearchResults (some oneTemplateResponse),
                    Call.setIsSearching false] }) ∧
    inFlightState.isSearching = true ∧
    run inFlightState (clickSearchButton workingApi inFlightState) =
      (Except.ok (), { state := inFlightState, trace := [] }) ∧
    run inFlightState (handleKeyPress workingApi inFlightState enterKey) =
      (Except.ok (),
        { state := { inFlightState with
                      isSearching := false, searchResults := some oneTemplateResponse }
          trace := [Call.preventDefault, Call.setIsSearching true,
                    Call.setShowAdvancedSearch false, Call.searchPrompts "email".toList,
                    Call.consoleLog, Call.setSearchResults (some oneTemplateResponse),
                    Call.setIsSearching false] }) :=
  ⟨by decide, rfl, rfl, rfl, rfl, rfl⟩

/-! ## Result grouping -/

theorem mem_objectKeys_of_getProp (r : SearchResponse) (key : JsString)
    (v : List ResultItem) (h : getProp r key = some v) : key ∈ objectKeys r := by
  induction r with
  | nil => simp [getProp, List.lookup] at h
  | cons kv rest ih =>
    obtain ⟨k, w⟩ := kv
    by_cases hk : key = k
    · simp [objectKeys, hk]
    · have hb : (key == k) = false := by simpa using hk
      have : getProp rest key = some v := by
        simpa [getProp, List.lookup, hb] using h
      have := ih this
      simp only [objectKeys, List.map_cons, List.mem_cons]
      exact Or.inr this

theorem lengthPositive_iff (v : Option (List ResultItem)) :
    lengthPositive v = true ↔ ∃ x xs, v = some (x :: xs) := by
  cases v with
  | none => simp [lengthPositive]
  | some items => cases items <;> simp [lengthPositive]

theorem panel_condition_iff (r : SearchResponse) :
    (objectKeys r).any
        (fun key => PREFIXES.contains key && lengthPositive (getProp r key)) = true ↔
      ∃ pfx ∈ PREFIXES, lengthPositive (getProp r pfx) = true := by
  simp only [List.any_eq_true, Bool.and_eq_true, List.contains, List.elem_iff]
  constructor
  · rintro ⟨key, -, hmem, hpos⟩
    exact ⟨key, hmem, hpos⟩
  · rintro ⟨pfx, hmem, hpos⟩
    obtain ⟨x, xs, hv⟩ := (lengthPositive_iff _).mp hpos
    exact ⟨pfx, mem_objectKeys_of_getProp r pfx _ hv, hmem, hpos⟩

theorem specGrouping_eq_nil_iff (r : SearchResponse) :
    specGrouping r = [] ↔ ∀ pfx ∈ PREFIXES, lengthPositive (getProp r pfx) = false := by
  unfold specGrouping
  rw [List.filterMap_eq_nil_iff]
  refine forall₂_congr fun pfx _ => ?_
  cases hv : getProp r pfx with
  | none => simp [lengthPositive]
  | some items => cases items <;> simp [lengthPositive]

theorem panel_grouping (r : SearchResponse) (L : List JsString) :
    (L.map fun pfx =>
        if lengthPositive (getProp r pfx) then
          some ({ key := pfx, header := replace pfx ['-'] [' '],
                  items := (getProp r pfx).getD [] } : CategoryBlock)
        else none).filterMap (Option.map fun b => (b.key, b.items)) =
      L.filterMap fun pfx =>
        match getProp r pfx with
        | some (x :: xs) => some (pfx, x :: xs)
        | _ => none := by
  induction L with
  | nil => rfl
  | cons pfx rest ih =>
    rw [List.map_cons, List.filterMap_cons, List.filterMap_cons, ih]
    cases hv : getProp r pfx with
    | none => simp [lengthPositive]
    | some items => cases items <;> simp [lengthPositive]

theorem renderSearchResults_grouping_eq (r : SearchResponse) :
    (renderSearchResults r).grouping = specGrouping r := by
  unfold renderSearchResults
  split_ifs with h
  · exact panel_grouping r PREFIXES
  · symm
    rw [Rendered.grouping, specGrouping_eq_nil_iff]
    intro pfx hmem
    by_contra hpos
    exact h ((panel_condition_iff r).mpr ⟨pfx, hmem, by simpa using hpos⟩)

/-- C4: the category blocks displayed by `renderSearchResults` are exactly the
vocabulary-ordered pairs (category, items) of the categories whose item
sequence in the response is present and non-empty; every displayed category
belongs to the vocabulary and carries the response's own non-empty item
sequence; and "No results found." is returned exactly when that list is
empty. -/
theorem renderSearchResults_grouping (r : SearchResponse) :
    (renderSearchResults r).grouping = specGrouping r ∧
    (∀ g ∈ (renderSearchResults r).grouping,
      g.1 ∈ PREFIXES ∧ g.2 ≠ [] ∧ getProp r g.1 = some g.2) ∧
    (renderSearchResults r = Rendered.noResultsFound ↔ specGrouping r = []) := by
  refine ⟨renderSearchResults_grouping_eq r, ?_, ?_⟩
  · rw [renderSearchResults_grouping_eq]
    intro g hg
    simp only [specGrouping, List.mem_filterMap] at hg
    obtain ⟨pfx, hmem, hsome⟩ := hg
    cases hv : getProp r pfx with
    | none => simp [hv] at hsome
    | some items =>
      cases items with
      | nil => simp [hv] at hsome
      | cons x xs =>
        simp only [hv, Option.some.injEq] at hsome
        subst hsome
        exact ⟨hmem, by simp, hv⟩
  · rw [specGrouping_eq_nil_iff]
    unfold renderSearchResults
    split_ifs with h
    · obtain ⟨pfx, hmem, hpos⟩ := (panel_condition_iff r).mp h
      constructor
      · intro hne
        cases hne
      · intro hall
        rw [hall pfx hmem] at hpos
        cases hpos
    · constructor
      · intro _ pfx hmem
        by_contra hpos
        exact h ((panel_condition_iff r).mpr ⟨pfx, hmem, by simpa using hpos⟩)
      · intro _
        rfl

/-- Witness for C4 at `mixedResponse`: only the vault block is displayed. -/
theorem renderSearchResults_grouping_witness :
    (renderSearchResults mixedResponse).grouping = [("vault".toList, [vaultNote])] ∧
    ("vault".toList ∈ PREFIXES ∧ [vaultNote] ≠ [] ∧
      getProp mixedResponse "vault".toList = some [vaultNote]) :=
  ⟨by decide,
   (renderSearchResults_grouping mixedResponse).2.1 ("vault".toList, [vaultNote]) (by decide)⟩

/-! ## Strings -/

theorem isPrefixOf_append_self (t r : JsString) : t.isPrefixOf (t ++ r) = true := by
  rw [List.isPrefixOf_iff_prefix]
  exact List.prefix_append t r

theorem indexOf_append_self (t r : JsString) : indexOf (t ++ r) t = some 0 := by
  unfold indexOf
  rw [if_pos (isPrefixOf_append_self t r)]

theorem replace_append_self (t r : JsString) : replace (t ++ r) t [] = r := by
  simp [replace, indexOf_append_self]

theorem replace_of_not_includes (s t : JsString) (h : includes s t = false) :
    replace s t [] = s := by
  unfold includes at h
  unfold replace
  cases hi : indexOf s t with
  | none => rfl
  | some pos => rw [hi] at h; cases h

theorem rdropWhile_append_stop (f : Char → Bool) (a : JsString) (x : Char) (b : JsString)
    (hx : f x = false) :
    List.rdropWhile f (a ++ x :: b) = a ++ x :: List.rdropWhile f b := by
  induction b using List.reverseRecOn with
  | nil =>
    rw [List.rdropWhile_nil]
    exact List.rdropWhile_concat_neg f a x (by simp [hx])
  | append_singleton b y ih =>
    have e : a ++ x :: (b ++ [y]) = (a ++ x :: b) ++ [y] := by simp
    rw [e, List.rdropWhile_concat, List.rdropWhile_concat, ih]
    split_ifs <;> simp

theorem rdropWhile_cons (f : Char → Bool) (x : Char) (xs : JsString) :
    List.rdropWhile f (x :: xs) =
      if List.rdropWhile f xs = [] then (if f x then [] else [x])
      else x :: List.rdropWhile f xs := by
  induction xs using List.reverseRecOn with
  | nil => simp [List.rdropWhile_singleton]
  | append_singleton ys y ih =>
    have e : x :: (ys ++ [y]) = (x :: ys) ++ [y] := rfl
    rw [e, List.rdropWhile_concat, List.rdropWhile_concat]
    by_cases hy : f y = true
    · simp only [hy, if_true]
      exact ih
    · simp [hy]

theorem rdropWhile_dropWhile_comm (f : Char → Bool) (l : JsString) :
    List.rdropWhile f (List.dropWhile f l) = List.dropWhile f (List.rdropWhile f l) := by
  induction l with
  | nil => simp
  | cons x xs ih =>
    rw [rdropWhile_cons f x xs]
    by_cases hx : f x = true
    · rw [List.dropWhile_cons_of_pos hx, ih]
      by_cases hnil : List.rdropWhile f xs = []
      · simp [hnil, hx]
      · rw [if_neg hnil, List.dropWhile_cons_of_pos hx]
    · rw [List.dropWhile_cons_of_neg hx, rdropWhile_cons f x xs]
      by_cases hnil : List.rdropWhile f xs = []
      · simp [hnil, hx]
      · rw [if_neg hnil, List.dropWhile_cons_of_neg hx]

theorem trim_trimEnd (q : JsString) : trim (trimEnd q) = trim q := by
  unfold trim trimStart trimEnd
  rw [← rdropWhile_dropWhile_comm, List.rdropWhile_idempotent]

theorem token_head (p : JsString) (hp : p ∈ PREFIXES) :
    ∃ c w, prefixWithColon p = c :: w ∧ isWhiteSpace c = false := by
  simp only [PREFIXES, List.mem_cons, List.mem_singleton, List.not_mem_nil, or_false] at hp
  rcases hp with h | h | h | h | h <;> subst h <;> exact ⟨_, _, rfl, by decide⟩

theorem trim_token_append (p q : JsString) (hp : p ∈ PREFIXES) :
    trim (prefixWithColon p ++ q) = prefixWithColon p ++ trimEnd q := by
  obtain ⟨c, w, hcw, hc⟩ := token_head p hp
  have hstart : trimStart (prefixWithColon p ++ q) = prefixWithColon p ++ q := by
    rw [hcw]
    exact List.dropWhile_cons_of_neg (by simp [hc])
  unfold trim
  rw [hstart]
  unfold trimEnd prefixWithColon
  rw [List.append_assoc, List.singleton_append, List.append_assoc, List.singleton_append]
  exact rdropWhile_append_stop isWhiteSpace p ':' q (by decide)

/-! ## Query validation -/

theorem guarded_replace_eq (r t : JsString) :
    (if includes r t then replace r t [] else r) = replace r t [] := by
  by_cases h : includes r t = true
  · rw [if_pos h]
  · rw [if_neg h, replace_of_not_includes r t (by simpa using h)]

theorem isValidQuery_eq_foldl_replace (q : JsString) :
    isValidQuery q =
      decide ((trim ((PREFIXES.map prefixWithColon).foldl
        (fun remaining t => replace remaining t []) q)).length > 0) := by
  unfold isValidQuery
  simp only [guarded_replace_eq]

theorem replace_eq_removeFirst (t s : JsString) : replace s t [] = removeFirst t s := by
  induction s with
  | nil =>
    unfold replace indexOf
    split_ifs <;> simp [removeFirst]
  | cons c cs ih =>
    unfold replace at ih ⊢
    rw [indexOf, removeFirst]
    by_cases hpre : t.isPrefixOf (c :: cs) = true
    · simp [hpre]
    · rw [if_neg hpre, if_neg hpre, ← ih]
      cases hi : indexOf cs t with
      | none => rfl
      | some pos =>
        have e : pos + 1 + t.length = (pos + t.length) + 1 := by omega
        simp only [Option.map_some', List.take_succ_cons, List.append_nil, e,
          List.drop_succ_cons, List.cons_append]

/-- C1 (amended): `isValidQuery(q)` is true exactly when the text that remains
after removing the first occurrence of each prefix token from `q`, in
vocabulary order, then trimming whitespace, has length greater than 0. -/
theorem isValidQuery_iff_first_occurrences_removed (q : JsString) :
    isValidQuery q = decide ((trim (removeFirstPrefixTokens q)).length > 0) := by
  rw [isValidQuery_eq_foldl_replace]
  simp only [PREFIXES, List.map_cons, List.map_nil, List.foldl_cons, List.foldl_nil,
    replace_eq_removeFirst, removeFirstPrefixTokens]
  rfl

/-- Counterexample for C1 as stated: "template:template:" is valid for the
component although nothing remains once every occurrence of every prefix token
is removed. -/
theorem isValidQuery_repeated_token :
    isValidQuery "template:template:".toList = true ∧
    removeAllPrefixTokens "template:template:".toList = [] ∧
    decide ((trim (removeAllPrefixTokens "template:template:".toList)).length > 0) = false := by
  decide

/-! ## Prefix toggling -/

/-- C6 (evaluation of the code): toggling "template" on the query
"template: x" takes the removal branch and sets the query to " x", which keeps
its leading space, whereas trimming the text with the first occurrence of the
token removed gives "x". -/
theorem handleAddPrefix_removal_not_trimmed :
    includes "template: x".toList (prefixWithColon "template".toList) = true ∧
    handleAddPrefixValue "template: x".toList "template".toList = " x".toList ∧
    trim (replace "template: x".toList (prefixWithColon "template".toList) []) = "x".toList ∧
    (run { prefixOnlyState with searchQuery := "template: x".toList }
        (handleAddPrefix { prefixOnlyState with searchQuery := "template: x".toList }
          "template".toList)).2.state.searchQuery = " x".toList := by
  decide

theorem toggle_of_absent (q p : JsString) (hp : p ∈ PREFIXES)
    (habs : includes q (prefixWithColon p) = false) :
    handleAddPrefixValue q p = prefixWithColon p ++ trimEnd q := by
  unfold handleAddPrefixValue
  rw [habs]
  simp only [Bool.false_eq_true, if_false]
  exact trim_token_append p q hp

theorem toggle_of_leading_token (p r : JsString) :
    handleAddPrefixValue (prefixWithColon p ++ r) p = r := by
  unfold handleAddPrefixValue
  have hinc : includes (prefixWithColon p ++ r) (prefixWithColon p) = true := by
    simp [includes, indexOf_append_self]
  rw [if_pos hinc]
  exact replace_append_self _ _

/-- C10: for a vocabulary prefix `p` whose token `p + ":"` does not occur in
`q`, the first toggle yields the token followed by `trimEnd(q)`, the first
occurrence of the token in that string is at index 0, and the second toggle
removes it, leaving exactly `trimEnd(q)`. -/
theorem toggle_twice_of_absent (q p : JsString) (hp : p ∈ PREFIXES)
    (habs : includes q (prefixWithColon p) = false) :
    handleAddPrefixValue q p = prefixWithColon p ++ trimEnd q ∧
    indexOf (prefixWithColon p ++ trimEnd q) (prefixWithColon p) = some 0 ∧
    handleAddPrefixValue (handleAddPrefixValue q p) p = trimEnd q := by
  refine ⟨toggle_of_absent q p hp habs, indexOf_append_self _ _, ?_⟩
  rw [toggle_of_absent q p hp habs]
  exact toggle_of_leading_token p (trimEnd q)

/-- Witness for C10 at the query " code review " and the prefix "vault". -/
theorem toggle_twice_of_absent_witness :
    "vault".toList ∈ PREFIXES ∧
    includes " code review ".toList (prefixWithColon "vault".toList) = false ∧
    handleAddPrefixValue " code review ".toList "vault".toList =
      "vault: code review".toList ∧
    handleAddPrefixValue (handleAddPrefixValue " code review ".toList "vault".toList)
      "vault".toList = " code review".toList := by
  have h := toggle_twice_of_absent " code review ".toList "vault".toList (by decide) (by decide)
  refine ⟨by decide, by decide, ?_, ?_⟩
  · rw [h.1]
    decide
  · rw [h.2.2]
    decide

/-- C3 (amended): for a vocabulary prefix `p` with token `t = p + ":"`, and a
query `q` that either does not contain `t`, or begins with `t` and does not
contain it again after that, toggling `p` twice yields a string equal to `q` up
to surrounding whitespace. -/
theorem toggle_twice_restores (q p : JsString) (hp : p ∈ PREFIXES)
    (hq : includes q (prefixWithColon p) = false ∨
      ∃ r, q = prefixWithColon p ++ r ∧ includes r (prefixWithColon p) = false) :
    trim (handleAddPrefixValue (handleAddPrefixValue q p) p) = trim q := by
  rcases hq with habs | ⟨r, hqr, hr⟩
  · rw [toggle_of_absent q p hp habs, toggle_of_leading_token]
    exact trim_trimEnd q
  · rw [hqr, toggle_of_leading_token, toggle_of_absent r p hp hr,
      trim_token_append p r hp, trim_token_append p (trimEnd r) hp]
    unfold trimEnd
    rw [List.rdropWhile_idempotent]

/-- Witness for C3 (amended) at the query "template:email " and the prefix
"template". -/
theorem toggle_twice_restores_witness :
    "template".toList ∈ PREFIXES ∧
    (∃ r, "template:email ".toList = prefixWithColon "template".toList ++ r ∧
      includes r (prefixWithColon "template".toList) = false) ∧
    trim (handleAddPrefixValue (handleAddPrefixValue "template:email ".toList "template".toList)
      "template".toList) = trim "template:email ".toList :=
  ⟨by decide, ⟨"email ".toList, by decide, by decide⟩,
   toggle_twice_restores "template:email ".toList "template".toList (by decide)
     (Or.inr ⟨"email ".toList, by decide, by decide⟩)⟩

/-- Counterexample for C3 as stated: toggling "template" twice on the query
"a template:" moves the token to the front, giving "template:a". -/
theorem toggle_twice_moves_token :
    "template".toList ∈ PREFIXES ∧
    trim (handleAddPrefixValue (handleAddPrefixValue "a template:".toList "template".toList)
      "template".toList) = "template:a".toList ∧
    trim "a template:".toList = "a template:".toList ∧
    trim (handleAddPrefixValue (handleAddPrefixValue "a template:".toList "template".toList)
      "template".toList) ≠ trim "a template:".toList := by
  decide

/-! ## Queries made of prefix tokens only -/

theorem indexOf_skip (t : JsString) (x R : JsString)
    (hskip : ∀ k, k < x.length → t.isPrefixOf (x.drop k ++ R) = false) :
    indexOf (x ++ R) t = (indexOf R t).map (· + x.length) := by
  induction x with
  | nil => simp
  | cons c x ih =>
    have h0 : t.isPrefixOf (c :: x ++ R) = false := hskip 0 (by simp)
    have hrest : ∀ k, k < x.length → t.isPrefixOf (x.drop k ++ R) = false := by
      intro k hk
      have := hskip (k + 1) (by simpa using hk)
      simpa using this
    rw [List.cons_append] at h0 ⊢
    rw [indexOf, h0]
    simp only [Bool.false_eq_true, if_false]
    rw [ih hrest, Option.map_map]
    congr 1

theorem replace_skip (t x R : JsString)
    (h : indexOf (x ++ R) t = (indexOf R t).map (· + x.length)) :
    replace (x ++ R) t [] = x ++ replace R t [] := by
  unfold replace
  rw [h]
  cases hi : indexOf R t with
  | none => rfl
  | some pos =>
    simp only [Option.map_some', List.append_nil]
    have e1 : pos + x.length = x.length + pos := Nat.add_comm _ _
    have e2 : x.length + pos + t.length = x.length + (pos + t.length) := Nat.add_assoc _ _ _
    rw [e1, e2, List.take_append, List.drop_append, List.append_assoc]

theorem isPrefixOf_take (t u R : JsString) (h : t.isPrefixOf (u ++ R) = true) :
    t.take u.length = u.take t.length := by
  induction t generalizing u with
  | nil => simp
  | cons c w ih =>
    cases u with
    | nil => simp
    | cons d u =>
      rw [List.cons_append, List.isPrefixOf, Bool.and_eq_true] at h
      have hcd : c = d := by simpa using h.1
      simp only [List.length_cons, List.take_succ_cons, hcd, ih u h.2]

theorem whitespace_skip (t x R : JsString) (c : Char) (w : JsString) (ht : t = c :: w)
    (hc : isWhiteSpace c = false) (hx : x.all isWhiteSpace = true) :
    ∀ k, k < x.length → t.isPrefixOf (x.drop k ++ R) = false := by
  intro k hk
  obtain ⟨d, rest, hd⟩ : ∃ d rest, x.drop k = d :: rest := by
    cases hdrop : x.drop k with
    | nil =>
      have := congrArg List.length hdrop
      simp at this
      omega
    | cons d rest => exact ⟨d, rest, rfl⟩
  have hdmem : d ∈ x := List.mem_of_mem_drop (by rw [hd]; exact List.mem_cons_self d rest)
  have hdws : isWhiteSpace d = true := (List.all_eq_true.mp hx) d hdmem
  have hne : c ≠ d := by
    intro hcd
    rw [hcd, hdws] at hc
    cases hc
  rw [hd, ht, List.cons_append, List.isPrefixOf]
  simp [hne]

set_option maxRecDepth 100000 in
theorem tokens_do_not_overlap :
    ∀ t ∈ prefixTokens, ∀ u ∈ prefixTokens, t ≠ u →
      ∀ k, k < u.length → t.take (u.drop k).length ≠ (u.drop k).take t.length := by
  decide

theorem token_skip (t u R : JsString) (ht : t ∈ prefixTokens) (hu : u ∈ prefixTokens)
    (hne : t ≠ u) : ∀ k, k < u.length → t.isPrefixOf (u.drop k ++ R) = false := by
  intro k hk
  by_contra hpre
  have hpre : t.isPrefixOf (u.drop k ++ R) = true := by simpa using hpre
  exact tokens_do_not_overlap t ht u hu hne k hk (isPrefixOf_take t (u.drop k) R hpre)

theorem prefixToken_shape (t : JsString) (ht : t ∈ prefixTokens) :
    ∃ c w, t = c :: w ∧ isWhiteSpace c = false := by
  simp only [prefixTokens, List.mem_map] at ht
  obtain ⟨p, hp, rfl⟩ := ht
  exact token_head p hp

theorem onlyPrefixTokens_erase (pieces : List JsString) (t : JsString)
    (h : OnlyPrefixTokens pieces) : OnlyPrefixTokens (pieces.erase t) :=
  fun x hx => h x (List.mem_of_mem_erase hx)

theorem replace_flatten (pieces : List JsString) (t : JsString) (ht : t ∈ prefixTokens)
    (h : OnlyPrefixTokens pieces) :
    replace pieces.flatten t [] = (pieces.erase t).flatten := by
  obtain ⟨c, w, htcw, hc⟩ := prefixToken_shape t ht
  induction pieces with
  | nil =>
    have : indexOf [] t = none := by
      rw [indexOf, htcw]
      rfl
    simp [replace, this]
  | cons x rest ih =>
    have hrest : OnlyPrefixTokens rest := fun y hy => h y (List.mem_cons_of_mem x hy)
    rw [List.flatten_cons]
    by_cases hxt : x = t
    · subst hxt
      rw [List.erase_cons_head]
      exact replace_append_self _ _
    · have hbeq : ¬ (x == t) = true := by simpa using hxt
      rw [List.erase_cons_tail hbeq, List.flatten_cons, ← ih hrest]
      apply replace_skip
      apply indexOf_skip
      rcases h x (List.mem_cons_self x rest) with hx | hx
      · exact token_skip t x _ ht hx (fun e => hxt e.symm)
      · exact whitespace_skip t x _ c w htcw hc hx

theorem foldl_replace_flatten (ts : List JsString) (hts : ∀ t ∈ ts, t ∈ prefixTokens)
    (pieces : List JsString) (h : OnlyPrefixTokens pieces) :
    ts.foldl (fun remaining t => replace remaining t []) pieces.flatten =
      (ts.foldl List.erase pieces).flatten := by
  induction ts generalizing pieces with
  | nil => rfl
  | cons t ts ih =>
    rw [List.foldl_cons, List.foldl_cons,
      replace_flatten pieces t (hts t (List.mem_cons_self t ts)) h]
    exact ih (fun u hu => hts u (List.mem_cons_of_mem t hu)) _
      (onlyPrefixTokens_erase pieces t h)

theorem mem_of_mem_foldl_erase (ts pieces : List JsString) (x : JsString)
    (hx : x ∈ ts.foldl List.erase pieces) : x ∈ pieces := by
  induction ts generalizing pieces with
  | nil => exact hx
  | cons t ts ih => exact List.mem_of_mem_erase (ih (pieces.erase t) hx)

theorem count_foldl_erase_le (ts pieces : List JsString) (x : JsString) :
    (ts.foldl List.erase pieces).count x ≤ pieces.count x := by
  induction ts generalizing pieces with
  | nil => exact Nat.le_refl _
  | cons t ts ih =>
    exact Nat.le_trans (ih (pieces.erase t)) ((List.erase_sublist t pieces).count_le x)

theorem count_foldl_erase_of_mem (ts pieces : List JsString) (x : JsString) (hx : x ∈ ts) :
    (ts.foldl List.erase pieces).count x ≤ pieces.count x - 1 := by
  induction ts generalizing pieces with
  | nil => cases hx
  | cons t ts ih =>
    rw [List.foldl_cons]
    by_cases hxt : x = t
    · subst hxt
      have := count_foldl_erase_le ts (pieces.erase x) x
      rwa [List.count_erase_self] at this
    · have hmem : x ∈ ts := by
        rcases List.mem_cons.mp hx with h | h
        · exact absurd h hxt
        · exact h
      have h1 := ih (pieces.erase t) hmem
      have h2 : (pieces.erase t).count x ≤ pieces.count x :=
        (List.erase_sublist t pieces).count_le x
      omega

theorem trim_whitespace_only (s : JsString) (h : s.all isWhiteSpace = true) : trim s = [] := by
  unfold trim trimStart
  have : s.dropWhile isWhiteSpace = [] := by
    rw [List.dropWhile_eq_nil_iff]
    exact List.all_eq_true.mp h
  rw [this]
  rfl

/-- C5 (amended): a query that consists only of prefix tokens of the
vocabulary, each token at most once, optionally separated or surrounded by
whitespace, is not valid; this includes the empty query. -/
theorem prefix_only_query_invalid (pieces : List JsString) (h : OnlyPrefixTokens pieces)
    (honce : ∀ t ∈ prefixTokens, pieces.count t ≤ 1) :
    isValidQuery pieces.flatten = false := by
  rw [isValidQuery_eq_foldl_replace]
  have hfold := foldl_replace_flatten prefixTokens (fun t ht => ht) pieces h
  unfold prefixTokens at hfold
  rw [hfold]
  have hall : (List.foldl List.erase pieces (PREFIXES.map prefixWithColon)).flatten.all
      isWhiteSpace = true := by
    rw [List.all_eq_true]
    intro ch hch
    obtain ⟨x, hxmem, hchx⟩ := List.mem_flatten.mp hch
    rcases h x (mem_of_mem_foldl_erase _ _ x hxmem) with hx | hx
    · have hcount := count_foldl_erase_of_mem prefixTokens pieces x hx
      have := honce x hx
      have hpos : 0 < (List.foldl List.erase pieces prefixTokens).count x :=
        List.count_pos_iff.mpr hxmem
      omega
    · exact (List.all_eq_true.mp hx) ch hchx
  rw [trim_whitespace_only _ hall]
  rfl

/-- Witness for C5 (amended) at the query " content: template:vault: " and at
the empty query. -/
theorem prefix_only_query_invalid_witness :
    OnlyPrefixTokens threeTokenPieces ∧
    (∀ t ∈ prefixTokens, threeTokenPieces.count t ≤ 1) ∧
    threeTokenPieces.flatten = " content: template:vault: ".toList ∧
    isValidQuery " content: template:vault: ".toList = false :=
  ⟨by decide, by decide, by decide,
   prefix_only_query_invalid threeTokenPieces (by decide) (by decide)⟩

/-- Counterexample for C5 as stated: the query "vault: vault:" consists only
of prefix tokens and whitespace, yet it is valid for the component. -/
theorem repeated_token_query_valid :
    OnlyPrefixTokens repeatedVaultPieces ∧
    repeatedVaultPieces.flatten = "vault: vault:".toList ∧
    isValidQuery "vault: vault:".toList = true := by
  decide

end SemanticSearch
